import Mathlib

/-!
Verification of the device-virtualization core of the firecracker fork:
the `Bus` address-space router (`vmm/src/vmm_config/device_config.rs`) and
the aarch64 GIC interrupt-controller state save/restore drivers
(`src/arch/src/aarch64/gic/gicv2/regs/mod.rs`, `gicv3/regs/mod.rs`,
`gicv2/regs/icc_regs.rs`).

Machine integers (`u64`) are modelled as `Nat` with explicit `% 2 ^ 64`
at the points where Rust release-mode wrapping arithmetic matters.
The leaf register modules that are not part of the sources
(`gic/regs.rs` engine, the `dist_regs`/`redist_regs` descriptor modules and
`save_pending_tables`) are modelled from the specification; such
definitions carry a doc comment starting with `Modelled from the spec:`.
-/

/-- The u64 modulus: Rust `u64` arithmetic wraps modulo this value. -/
def U64 : Nat := 2 ^ 64

/-! ## Bus (vmm/src/vmm_config/device_config.rs) -/

/-- BusRange(u64, u64): a base address and a length.  In the source the
ordering and equality used by the BTreeMap compare only the base. -/
structure BusRange where
  base : Nat
  len : Nat
deriving DecidableEq

/-- Errors for Bus (enum Error in the source). -/
inductive BusError where
  | overlap
deriving DecidableEq

/-- The Bus device table: the BTreeMap<BusRange, device> is represented as
its ascending-by-base entry list; device handles are natural numbers
standing for the Arc<Mutex<dyn FirecrackerDevice>> pointers. -/
structure Bus where
  devices : List (BusRange × Nat)
deriving DecidableEq

/-- Bus::new(): a bus with an empty address space. -/
def Bus.new : Bus := ⟨[]⟩

/-- Bus::first_before iterates the BTreeMap entries in reverse (descending
base) order and returns the first whose base is at most addr; structurally
this is the last entry of the ascending list whose base is at most addr,
so the recursion prefers a hit found in the tail. -/
def firstBeforeList (addr : Nat) : List (BusRange × Nat) → Option (BusRange × Nat)
  | [] => none
  | e :: t =>
    match firstBeforeList addr t with
    | some r => some r
    | none => if e.1.base ≤ addr then some e else none

/-- Bus::first_before on the bus. -/
def Bus.first_before (bus : Bus) (addr : Nat) : Option (BusRange × Nat) :=
  firstBeforeList addr bus.devices

/-- Bus::get_device: predecessor search followed by the range check
`offset < len` where `offset = addr - start`. -/
def Bus.get_device (bus : Bus) (addr : Nat) : Option (Nat × Nat) :=
  match bus.first_before addr with
  | some (r, dev) =>
    let offset := addr - r.base
    if offset < r.len then some (offset, dev) else none
  | none => none

/-- BTreeMap::insert for the base-ordered map: inserts at the sorted
position; when an entry with an equal base exists, the stored key is kept,
the value is replaced and the old value is returned. -/
def btreeInsert (key : BusRange) (v : Nat) :
    List (BusRange × Nat) → List (BusRange × Nat) × Option Nat
  | [] => ([(key, v)], none)
  | (k, w) :: t =>
    if key.base < k.base then ((key, v) :: (k, w) :: t, none)
    else if key.base = k.base then ((k, v) :: t, some w)
    else
      let r := btreeInsert key v t
      ((k, w) :: r.1, r.2)

/-- Bus::insert.  The end address `base + len - 1` is computed with
wrapping u64 arithmetic, as in a Rust release build.  The result pairs the
returned Result with the bus after the call (the final BTreeMap::insert
mutates the map even on its error path). -/
def Bus.insert (bus : Bus) (device base len : Nat) : Except BusError Unit × Bus :=
  if len = 0 then (.error .overlap, bus)
  else if (bus.get_device base).isSome then (.error .overlap, bus)
  else
    let endAddr := (base + len - 1) % U64
    let doInsert :=
      let r := btreeInsert ⟨base, len⟩ device bus.devices
      match r.2 with
      | some _ => ((Except.error BusError.overlap : Except BusError Unit), Bus.mk r.1)
      | none => ((Except.ok () : Except BusError Unit), Bus.mk r.1)
    match bus.first_before endAddr with
    | some (r, _) => if base ≤ r.base then (.error .overlap, bus) else doInsert
    | none => doInsert

/-- Abstract semantics of a FirecrackerDevice: read takes an offset and the
byte buffer and yields the updated device state and updated buffer; write
takes an offset and the buffer and yields the updated device state. -/
structure DeviceSem (σ : Type) where
  dread : σ → Nat → List Nat → σ × List Nat
  dwrite : σ → Nat → List Nat → σ

/-- Pointwise update of a device-state table. -/
def updateFun {α : Type} (f : Nat → α) (k : Nat) (v : α) : Nat → α :=
  fun k' => if k' = k then v else f k'

/-- Bus::read: resolve the device via get_device and forward the read at
the pre-computed offset, returning true; when no device owns the address,
return false with the buffer untouched. -/
def Bus.read {σ : Type} (sem : DeviceSem σ) (bus : Bus) (devs : Nat → σ)
    (addr : Nat) (data : List Nat) : Bool × (Nat → σ) × List Nat :=
  match bus.get_device addr with
  | some (offset, d) =>
    let r := sem.dread (devs d) offset data
    (true, updateFun devs d r.1, r.2)
  | none => (false, devs, data)

/-- Bus::write: resolve the device via get_device and forward the write at
the pre-computed offset, returning true; when no device owns the address,
return false. -/
def Bus.write {σ : Type} (sem : DeviceSem σ) (bus : Bus) (devs : Nat → σ)
    (addr : Nat) (data : List Nat) : Bool × (Nat → σ) :=
  match bus.get_device addr with
  | some (offset, d) => (true, updateFun devs d (sem.dwrite (devs d) offset data))
  | none => (false, devs)

/-- A range contains an address when it lies in the half-open interval. -/
def containsAddr (r : BusRange) (a : Nat) : Prop :=
  r.base ≤ a ∧ a < r.base + r.len

instance (r : BusRange) (a : Nat) : Decidable (containsAddr r a) :=
  inferInstanceAs (Decidable (r.base ≤ a ∧ a < r.base + r.len))

/-- Two ranges overlap when their half-open intervals intersect (both
nonempty intersection conditions). -/
def rangesOverlap (r1 r2 : BusRange) : Prop :=
  r1.base < r2.base + r2.len ∧ r2.base < r1.base + r1.len

instance (r1 r2 : BusRange) : Decidable (rangesOverlap r1 r2) :=
  inferInstanceAs (Decidable (_ ∧ _))

/-- Representation invariant of the BTreeMap: entries strictly ascending
in base. -/
def Bus.sortedRep (bus : Bus) : Prop :=
  List.Chain' (fun e1 e2 => e1.1.base < e2.1.base) bus.devices

/-- A kernel-reducible decision procedure for the sortedness chain. -/
def decChainBaseLt : (l : List (BusRange × Nat)) →
    Decidable (List.Chain' (fun e1 e2 => e1.1.base < e2.1.base) l)
  | [] => isTrue List.chain'_nil
  | [e] => isTrue (List.chain'_singleton e)
  | e1 :: e2 :: t =>
    match Nat.decLt e1.1.base e2.1.base, decChainBaseLt (e2 :: t) with
    | isTrue h1, isTrue h2 => isTrue (h2.cons h1)
    | isFalse h1, _ => isFalse (fun hc => h1 (List.chain'_cons.mp hc).1)
    | _, isFalse h2 => isFalse (fun hc => h2 (List.chain'_cons.mp hc).2)

instance (bus : Bus) : Decidable bus.sortedRep := decChainBaseLt bus.devices

/-- Data-model invariant: every registered range has positive length. -/
def Bus.lensPos (bus : Bus) : Prop :=
  ∀ e ∈ bus.devices, 0 < e.1.len

instance (bus : Bus) : Decidable bus.lensPos :=
  inferInstanceAs (Decidable (∀ e ∈ bus.devices, 0 < e.1.len))

/-- The documented Bus invariant: registered ranges pairwise disjoint. -/
def Bus.disjointRanges (bus : Bus) : Prop :=
  List.Pairwise (fun e1 e2 => ¬ rangesOverlap e1.1 e2.1) bus.devices

instance (bus : Bus) : Decidable bus.disjointRanges :=
  inferInstanceAs (Decidable (List.Pairwise _ _))

/-- Well-formedness of a reachable bus representation. -/
def Bus.wf (bus : Bus) : Prop := bus.sortedRep ∧ bus.lensPos

instance (bus : Bus) : Decidable bus.wf :=
  inferInstanceAs (Decidable (_ ∧ _))

/-! ## GIC register model (src/arch/src/aarch64/gic) -/

/-- A hypervisor register key: the flat attribute namespace split by
register group (distributor, redistributor, CPU interface), vCPU affinity
identifier (0 for the distributor) and byte offset. -/
inductive GicReg where
  | dist (off : Nat)
  | redist (mpidr off : Nat)
  | icc (mpidr off : Nat)
deriving DecidableEq

/-- GIC errors reachable in this model (crate::aarch64::gic::Error). -/
inductive GicError where
  | inconsistentVcpuCount
  | invalidVgicSysRegState
deriving DecidableEq

/-- One observable hypervisor access performed by save/restore. -/
inductive GicEvent where
  | flushPendingTables
  | readReg (r : GicReg)
  | writeReg (r : GicReg) (v : Nat)
deriving DecidableEq

/-- The hypervisor-side state backing the attribute interface: the
register file, a presence predicate for optional CPU-interface system
registers, and the redistributor pending-table shadow whose contents are
folded into the register file by the flush. -/
@[ext] structure GicHyp where
  regs : GicReg → Nat
  present : GicReg → Bool
  shadow : List (GicReg × Nat)

/-- SimpleReg (crate::aarch64::gic::regs): offset and width in bytes. -/
structure SimpleReg where
  offset : Nat
  size : Nat
deriving DecidableEq

/-- SimpleReg::new. -/
def SimpleReg.new (offset size : Nat) : SimpleReg := ⟨offset, size⟩

/-- GicRegState (crate::aarch64::gic::regs): one register value stored as
its list of fixed-width chunks. -/
structure GicRegState where
  chunks : List Nat
deriving DecidableEq

/-- Chunk offsets of one register: one hypervisor access per chunk-sized
slice of the register, starting at the register offset. -/
def chunkOffsets (chunkSize : Nat) (r : SimpleReg) : List Nat :=
  (List.range ((r.size + chunkSize - 1) / chunkSize)).map fun i => r.offset + i * chunkSize

/-- Write one register chunk into the register file. -/
def setReg (s : GicHyp) (k : GicReg) (v : Nat) : GicHyp :=
  { s with regs := fun k' => if k' = k then v else s.regs k' }

/-- Modelled from the spec: the write half of the VgicRegEngine access
loop (crate::aarch64::gic::regs is not under src); issues one set-device-
attribute call per chunk, in order. -/
def writeChunks (s : GicHyp) (mk : Nat → GicReg) : List (Nat × Nat) → GicHyp × List GicEvent
  | [] => (s, [])
  | (o, v) :: rest =>
    let t := writeChunks (setReg s (mk o) v) mk rest
    (t.1, GicEvent.writeReg (mk o) v :: t.2)

/-- Modelled from the spec: VgicRegEngine::get_regs_data
(crate::aarch64::gic::regs is not under src): for each descriptor, one
get-device-attribute call per chunk, accumulating the chunks into one
GicRegState per descriptor, preserving descriptor order. -/
def getRegsData (s : GicHyp) (mk : Nat → GicReg) (cs : Nat) :
    List SimpleReg → List GicRegState × List GicEvent
  | [] => ([], [])
  | r :: rest =>
    let offs := chunkOffsets cs r
    let tail := getRegsData s mk cs rest
    (⟨offs.map fun o => s.regs (mk o)⟩ :: tail.1,
     offs.map (fun o => GicEvent.readReg (mk o)) ++ tail.2)

/-- Modelled from the spec: VgicRegEngine::set_regs_data
(crate::aarch64::gic::regs is not under src): the inverse of
get_regs_data, writing each value chunk by chunk in descriptor order. -/
def setRegsData (s : GicHyp) (mk : Nat → GicReg) (cs : Nat) :
    List SimpleReg → List GicRegState → GicHyp × List GicEvent
  | r :: rs, v :: vs =>
    let w := writeChunks s mk ((chunkOffsets cs r).zip v.chunks)
    let t := setRegsData w.1 mk cs rs vs
    (t.1, w.2 ++ t.2)
  | _, _ => (s, [])

/-- Modelled from the spec: the optional-register read path of the engine
(used for the GICv3 AP CPU-interface system registers): a register absent
on the core yields none, a present one is read chunk by chunk. -/
def getRegsDataOpt (s : GicHyp) (mk : Nat → GicReg) (cs : Nat) :
    List SimpleReg → List (Option GicRegState) × List GicEvent
  | [] => ([], [])
  | r :: rest =>
    let offs := chunkOffsets cs r
    let tail := getRegsDataOpt s mk cs rest
    if s.present (mk r.offset) then
      (some ⟨offs.map fun o => s.regs (mk o)⟩ :: tail.1,
       offs.map (fun o => GicEvent.readReg (mk o)) ++ tail.2)
    else (none :: tail.1, tail.2)

/-- Modelled from the spec: the optional-register write path of the
engine: an absent value is skipped without error for a register the core
does not have, and yields InvalidVgicSysRegState when the register is
present (an optional entry unexpectedly absent where required). -/
def setRegsDataOpt (s : GicHyp) (mk : Nat → GicReg) (cs : Nat) :
    List SimpleReg → List (Option GicRegState) → Except GicError GicHyp × List GicEvent
  | r :: rs, some v :: vs =>
    let w := writeChunks s mk ((chunkOffsets cs r).zip v.chunks)
    let t := setRegsDataOpt w.1 mk cs rs vs
    (t.1, w.2 ++ t.2)
  | r :: rs, none :: vs =>
    if s.present (mk r.offset) then (.error .invalidVgicSysRegState, [])
    else setRegsDataOpt s mk cs rs vs
  | _, _ => (.ok s, [])

/-- VgicSysRegsState (shared by both revisions): required main
CPU-interface registers plus optional AP registers. -/
structure VgicSysRegsState where
  main_icc_regs : List GicRegState
  ap_icc_regs : List (Option GicRegState)
deriving DecidableEq

/-! ## GICv2 (src/arch/src/aarch64/gic/gicv2) -/

namespace GicV2

/-- MAIN_VGIC_ICC_REGS from src gicv2/regs/icc_regs.rs. -/
def MAIN_VGIC_ICC_REGS : List SimpleReg :=
  [SimpleReg.new 0x00 4, SimpleReg.new 0x04 4, SimpleReg.new 0x08 4, SimpleReg.new 0x1c 4]

/-- KVM_DEV_ARM_VGIC_CPUID_SHIFT from src. -/
def KVM_DEV_ARM_VGIC_CPUID_SHIFT : Nat := 32

/-- KVM_DEV_ARM_VGIC_OFFSET_SHIFT from src. -/
def KVM_DEV_ARM_VGIC_OFFSET_SHIFT : Nat := 0

/-- The attr field of VgicSysRegEngine::kvm_device_attr from src
gicv2/regs/icc_regs.rs: u64 arithmetic, shifts wrap modulo 2^64. -/
def kvm_device_attr_attr (cpuid offset : Nat) : Nat :=
  (((cpuid <<< KVM_DEV_ARM_VGIC_CPUID_SHIFT) % U64) &&&
      ((0xff <<< KVM_DEV_ARM_VGIC_CPUID_SHIFT) % U64)) |||
    (((offset <<< KVM_DEV_ARM_VGIC_OFFSET_SHIFT) % U64) &&&
      ((0xffffffff <<< KVM_DEV_ARM_VGIC_OFFSET_SHIFT) % U64))

/-- Modelled from the spec: the GICv2 distributor register descriptors
(gicv2/regs/dist_regs.rs is not under src); a nonempty ordered list of
4-byte-wide distributor registers. -/
def DIST_REGS : List SimpleReg :=
  [SimpleReg.new 0x0 4, SimpleReg.new 0x4 4, SimpleReg.new 0x8 4,
   SimpleReg.new 0x80 4, SimpleReg.new 0x100 4, SimpleReg.new 0x400 4,
   SimpleReg.new 0xc00 4]

/-- get_icc_regs from src gicv2/regs/icc_regs.rs: reads the main ICC
registers through the engine and returns an empty ap_icc_regs list. -/
def get_icc_regs (s : GicHyp) (mpidr : Nat) : VgicSysRegsState × List GicEvent :=
  let m := getRegsData s (GicReg.icc mpidr) 8 MAIN_VGIC_ICC_REGS
  ({ main_icc_regs := m.1, ap_icc_regs := [] }, m.2)

/-- set_icc_regs from src gicv2/regs/icc_regs.rs: writes only the main
ICC registers; ap_icc_regs of the given state is never touched. -/
def set_icc_regs (s : GicHyp) (mpidr : Nat) (st : VgicSysRegsState) : GicHyp × List GicEvent :=
  setRegsData s (GicReg.icc mpidr) 8 MAIN_VGIC_ICC_REGS st.main_icc_regs

/-- Modelled from the spec: gicv2 get_dist_regs (dist_regs.rs not under
src): reads the distributor registers once through the engine. -/
def get_dist_regs (s : GicHyp) : List GicRegState × List GicEvent :=
  getRegsData s GicReg.dist 4 DIST_REGS

/-- Modelled from the spec: gicv2 set_dist_regs (dist_regs.rs not under
src): writes the distributor registers in descriptor order. -/
def set_dist_regs (s : GicHyp) (vals : List GicRegState) : GicHyp × List GicEvent :=
  setRegsData s GicReg.dist 4 DIST_REGS vals

/-- GicVcpuState from src gicv2/regs/mod.rs. -/
structure GicVcpuState where
  icc : VgicSysRegsState
deriving DecidableEq

/-- Gicv2State from src gicv2/regs/mod.rs. -/
structure Gicv2State where
  dist : List GicRegState
  gic_vcpu_states : List GicVcpuState
deriving DecidableEq

/-- The per-VCPU loop of gicv2 save_state, in caller-supplied order. -/
def saveVcpus (s : GicHyp) : List Nat → List GicVcpuState × List GicEvent
  | [] => ([], [])
  | m :: rest =>
    let g := get_icc_regs s m
    let t := saveVcpus s rest
    (⟨g.1⟩ :: t.1, g.2 ++ t.2)

/-- save_state from src gicv2/regs/mod.rs: the per-VCPU loop runs first;
the distributor registers are read afterwards, at the construction of the
returned Gicv2State literal. -/
def save_state (s : GicHyp) (mpidrs : List Nat) : Gicv2State × List GicEvent :=
  let v := saveVcpus s mpidrs
  let d := get_dist_regs s
  ({ dist := d.1, gic_vcpu_states := v.1 }, v.2 ++ d.2)

/-- The per-VCPU loop of gicv2 restore_state, in caller-supplied order. -/
def restoreVcpus (s : GicHyp) : List (Nat × GicVcpuState) → GicHyp × List GicEvent
  | [] => (s, [])
  | (m, vs) :: rest =>
    let w := set_icc_regs s m vs.icc
    let t := restoreVcpus w.1 rest
    (t.1, w.2 ++ t.2)

/-- restore_state from src gicv2/regs/mod.rs: writes the distributor
registers, then validates the VCPU count, then restores each VCPU in
order.  Returns the Result, the final hypervisor state and the trace of
accesses performed. -/
def restore_state (s : GicHyp) (mpidrs : List Nat) (st : Gicv2State) :
    Except GicError Unit × GicHyp × List GicEvent :=
  let d := set_dist_regs s st.dist
  if mpidrs.length ≠ st.gic_vcpu_states.length then
    (.error .inconsistentVcpuCount, d.1, d.2)
  else
    let t := restoreVcpus d.1 (mpidrs.zip st.gic_vcpu_states)
    (.ok (), t.1, d.2 ++ t.2)

end GicV2

/-! ## GICv3 (src/arch/src/aarch64/gic/gicv3) -/

namespace GicV3

/-- Modelled from the spec: the GICv3 distributor register descriptors
(gicv3/regs/dist_regs.rs is not under src); includes one 8-byte register
to exercise the multi-chunk path of the 4-byte-chunk engine. -/
def DIST_REGS : List SimpleReg :=
  [SimpleReg.new 0x0 4, SimpleReg.new 0x10 4, SimpleReg.new 0x80 4,
   SimpleReg.new 0x6100 8]

/-- Modelled from the spec: the GICv3 redistributor register descriptors
(gicv3/regs/redist_regs.rs is not under src). -/
def REDIST_REGS : List SimpleReg :=
  [SimpleReg.new 0x0 4, SimpleReg.new 0x14 4, SimpleReg.new 0x70 8]

/-- Modelled from the spec: the GICv3 main CPU-interface system register
descriptors (gicv3/regs/icc_regs.rs is not under src). -/
def MAIN_ICC_REGS : List SimpleReg :=
  [SimpleReg.new 0x8 8, SimpleReg.new 0x10 8, SimpleReg.new 0x18 8]

/-- Modelled from the spec: the GICv3 optional AP CPU-interface system
register descriptors (gicv3/regs/icc_regs.rs is not under src). -/
def AP_ICC_REGS : List SimpleReg :=
  [SimpleReg.new 0x20 8, SimpleReg.new 0x28 8]

/-- Modelled from the spec: gicv3 get_dist_regs. -/
def get_dist_regs (s : GicHyp) : List GicRegState × List GicEvent :=
  getRegsData s GicReg.dist 4 DIST_REGS

/-- Modelled from the spec: gicv3 set_dist_regs. -/
def set_dist_regs (s : GicHyp) (vals : List GicRegState) : GicHyp × List GicEvent :=
  setRegsData s GicReg.dist 4 DIST_REGS vals

/-- Modelled from the spec: gicv3 get_redist_regs for one vCPU. -/
def get_redist_regs (s : GicHyp) (mpidr : Nat) : List GicRegState × List GicEvent :=
  getRegsData s (GicReg.redist mpidr) 4 REDIST_REGS

/-- Modelled from the spec: gicv3 set_redist_regs for one vCPU. -/
def set_redist_regs (s : GicHyp) (mpidr : Nat) (vals : List GicRegState) :
    GicHyp × List GicEvent :=
  setRegsData s (GicReg.redist mpidr) 4 REDIST_REGS vals

/-- Modelled from the spec: gicv3 get_icc_regs: required main registers
plus optional AP registers. -/
def get_icc_regs (s : GicHyp) (mpidr : Nat) : VgicSysRegsState × List GicEvent :=
  let a := getRegsData s (GicReg.icc mpidr) 8 MAIN_ICC_REGS
  let b := getRegsDataOpt s (GicReg.icc mpidr) 8 AP_ICC_REGS
  ({ main_icc_regs := a.1, ap_icc_regs := b.1 }, a.2 ++ b.2)

/-- Modelled from the spec: gicv3 set_icc_regs: writes the main
registers, then the optional AP registers. -/
def set_icc_regs (s : GicHyp) (mpidr : Nat) (st : VgicSysRegsState) :
    Except GicError GicHyp × List GicEvent :=
  let a := setRegsData s (GicReg.icc mpidr) 8 MAIN_ICC_REGS st.main_icc_regs
  let b := setRegsDataOpt a.1 (GicReg.icc mpidr) 8 AP_ICC_REGS st.ap_icc_regs
  (b.1, a.2 ++ b.2)

/-- Fold the pending-table shadow into the register file. -/
def applyShadow : (GicReg → Nat) → List (GicReg × Nat) → (GicReg → Nat)
  | f, [] => f
  | f, (k, v) :: rest => applyShadow (fun k' => if k' = k then v else f k') rest

/-- Modelled from the spec: save_pending_tables (gicv3/mod.rs is not
under src): flushes the redistributors' pending-interrupt shadow tables
into guest-visible state before any register is read; the flush empties
the shadow, so a second flush changes nothing. -/
def save_pending_tables (s : GicHyp) : GicHyp × List GicEvent :=
  (⟨applyShadow s.regs s.shadow, s.present, []⟩, [GicEvent.flushPendingTables])

/-- GicVcpuState from src gicv3/regs/mod.rs. -/
structure GicVcpuState where
  rdist : List GicRegState
  icc : VgicSysRegsState
deriving DecidableEq

/-- GicState from src gicv3/regs/mod.rs. -/
structure GicState where
  dist : List GicRegState
  gic_vcpu_states : List GicVcpuState
deriving DecidableEq

/-- The per-VCPU loop of gicv3 save_state: for each affinity identifier,
in caller-supplied order, redistributor registers are read before the
CPU-interface registers. -/
def saveVcpus (s : GicHyp) : List Nat → List GicVcpuState × List GicEvent
  | [] => ([], [])
  | m :: rest =>
    let rd := get_redist_regs s m
    let ic := get_icc_regs s m
    let t := saveVcpus s rest
    (⟨rd.1, ic.1⟩ :: t.1, rd.2 ++ ic.2 ++ t.2)

/-- save_state from src gicv3/regs/mod.rs: flushes the pending tables
first, then runs the per-VCPU loop, then reads the distributor registers
at the construction of the returned GicState literal.  Returns the state
together with the post-flush hypervisor state and the access trace. -/
def save_state (s : GicHyp) (mpidrs : List Nat) : GicState × GicHyp × List GicEvent :=
  let fl := save_pending_tables s
  let v := saveVcpus fl.1 mpidrs
  let d := get_dist_regs fl.1
  ({ dist := d.1, gic_vcpu_states := v.1 }, fl.1, fl.2 ++ v.2 ++ d.2)

/-- The per-VCPU loop of gicv3 restore_state: redistributor writes before
CPU-interface writes for each vCPU; a CPU-interface failure aborts. -/
def restoreVcpus (s : GicHyp) : List (Nat × GicVcpuState) → Except GicError Unit × GicHyp × List GicEvent
  | [] => (.ok (), s, [])
  | (m, vs) :: rest =>
    let rd := set_redist_regs s m vs.rdist
    match set_icc_regs rd.1 m vs.icc with
    | (.ok s2, e2) =>
      let t := restoreVcpus s2 rest
      (t.1, t.2.1, rd.2 ++ e2 ++ t.2.2)
    | (.error err, e2) => (.error err, rd.1, rd.2 ++ e2)

/-- restore_state from src gicv3/regs/mod.rs: writes the distributor
registers, then validates the VCPU count, then restores each VCPU in
order (redistributor before CPU interface). -/
def restore_state (s : GicHyp) (mpidrs : List Nat) (st : GicState) :
    Except GicError Unit × GicHyp × List GicEvent :=
  let d := set_dist_regs s st.dist
  if mpidrs.length ≠ st.gic_vcpu_states.length then
    (.error .inconsistentVcpuCount, d.1, d.2)
  else
    match restoreVcpus d.1 (mpidrs.zip st.gic_vcpu_states) with
    | (r, s2, e2) => (r, s2, d.2 ++ e2)

end GicV3

/-! ## Trace-shape helper definitions -/

/-- The read events the engine performs for a descriptor list. -/
def readEventsFor (mk : Nat → GicReg) (cs : Nat) : List SimpleReg → List GicEvent
  | [] => []
  | r :: rest =>
    (chunkOffsets cs r).map (fun o => GicEvent.readReg (mk o)) ++ readEventsFor mk cs rest

/-- The read events the engine performs for an optional descriptor list:
only the registers present on the core are read. -/
def readEventsOpt (p : GicReg → Bool) (mk : Nat → GicReg) (cs : Nat) :
    List SimpleReg → List GicEvent
  | [] => []
  | r :: rest =>
    (if p (mk r.offset) then (chunkOffsets cs r).map (fun o => GicEvent.readReg (mk o)) else [])
      ++ readEventsOpt p mk cs rest

/-- The reads of one GICv3 per-VCPU iteration: redistributor first, then
CPU interface. -/
def vcpuReadEventsV3 (p : GicReg → Bool) (m : Nat) : List GicEvent :=
  readEventsFor (GicReg.redist m) 4 GicV3.REDIST_REGS
    ++ (readEventsFor (GicReg.icc m) 8 GicV3.MAIN_ICC_REGS
    ++ readEventsOpt p (GicReg.icc m) 8 GicV3.AP_ICC_REGS)

/-- The reads of the whole GICv3 per-VCPU loop in caller order. -/
def vcpuLoopReadEventsV3 (p : GicReg → Bool) : List Nat → List GicEvent
  | [] => []
  | m :: rest => vcpuReadEventsV3 p m ++ vcpuLoopReadEventsV3 p rest

/-- The reads of one GICv2 per-VCPU iteration. -/
def vcpuReadEventsV2 (m : Nat) : List GicEvent :=
  readEventsFor (GicReg.icc m) 8 GicV2.MAIN_VGIC_ICC_REGS

/-- The reads of the whole GICv2 per-VCPU loop in caller order. -/
def vcpuLoopReadEventsV2 : List Nat → List GicEvent
  | [] => []
  | m :: rest => vcpuReadEventsV2 m ++ vcpuLoopReadEventsV2 rest

/-- An event is a distributor register write. -/
def isDistWrite : GicEvent → Prop
  | GicEvent.writeReg (GicReg.dist _) _ => True
  | _ => False

instance (e : GicEvent) : Decidable (isDistWrite e) := by
  cases e with
  | flushPendingTables => exact isFalse (fun h => h)
  | readReg r => exact isFalse (fun h => h)
  | writeReg r v =>
    cases r with
    | dist o => exact isTrue trivial
    | redist m o => exact isFalse (fun h => h)
    | icc m o => exact isFalse (fun h => h)

/-! ## Bus lemmas -/

theorem firstBeforeList_mem_le {addr : Nat} :
    ∀ {l : List (BusRange × Nat)} {e : BusRange × Nat},
      firstBeforeList addr l = some e → e ∈ l ∧ e.1.base ≤ addr := by
  intro l
  induction l with
  | nil => intro e h; simp [firstBeforeList] at h
  | cons x t ih =>
    intro e h
    simp only [firstBeforeList] at h
    cases ht : firstBeforeList addr t with
    | some r =>
      simp only [ht] at h
      cases h
      obtain ⟨hm, hle⟩ := ih ht
      exact ⟨List.mem_cons_of_mem _ hm, hle⟩
    | none =>
      simp only [ht] at h
      by_cases hb : x.1.base ≤ addr
      · simp only [if_pos hb] at h
        cases h
        exact ⟨List.mem_cons_self _ _, hb⟩
      · simp [if_neg hb] at h

theorem firstBeforeList_isSome_of_mem {addr : Nat} :
    ∀ {l : List (BusRange × Nat)} {e : BusRange × Nat},
      e ∈ l → e.1.base ≤ addr → (firstBeforeList addr l).isSome := by
  intro l
  induction l with
  | nil => intro e h; simp at h
  | cons x t ih =>
    intro e hmem hle
    simp only [firstBeforeList]
    cases ht : firstBeforeList addr t with
    | some r => simp
    | none =>
      rcases List.mem_cons.mp hmem with h | h
      · subst h
        simp [if_pos hle]
      · have := ih h hle
        rw [ht] at this
        simp at this

theorem firstBeforeList_greatest {addr : Nat} :
    ∀ {l : List (BusRange × Nat)} {e e' : BusRange × Nat},
      List.Pairwise (fun e1 e2 => e1.1.base < e2.1.base) l →
      firstBeforeList addr l = some e → e' ∈ l → e'.1.base ≤ addr →
      e'.1.base ≤ e.1.base := by
  intro l
  induction l with
  | nil => intro e e' _ h; simp [firstBeforeList] at h
  | cons x t ih =>
    intro e e' hp h hmem hle
    obtain ⟨hx, hp'⟩ := List.pairwise_cons.mp hp
    simp only [firstBeforeList] at h
    cases ht : firstBeforeList addr t with
    | some r =>
      simp only [ht] at h
      cases h
      rcases List.mem_cons.mp hmem with hm | hm
      · subst hm
        exact Nat.le_of_lt (hx _ (firstBeforeList_mem_le ht).1)
      · exact ih hp' ht hm hle
    | none =>
      simp only [ht] at h
      by_cases hb : x.1.base ≤ addr
      · simp only [if_pos hb] at h
        cases h
        rcases List.mem_cons.mp hmem with hm | hm
        · subst hm; exact Nat.le_refl _
        · have := firstBeforeList_isSome_of_mem hm hle
          rw [ht] at this
          simp at this
      · simp [if_neg hb] at h

theorem pairwise_eq_of_not {α : Type} {R : α → α → Prop} :
    ∀ {l : List α} {a b : α}, List.Pairwise R l → a ∈ l → b ∈ l →
      ¬ R a b → ¬ R b a → a = b := by
  intro l
  induction l with
  | nil => intro a b _ h; simp at h
  | cons x t ih =>
    intro a b hp ha hb hab hba
    obtain ⟨hx, hp'⟩ := List.pairwise_cons.mp hp
    rcases List.mem_cons.mp ha with h1 | h1 <;> rcases List.mem_cons.mp hb with h2 | h2
    · subst h1; subst h2; rfl
    · subst h1; exact absurd (hx _ h2) hab
    · subst h2; exact absurd (hx _ h1) hba
    · exact ih hp' h1 h2 hab hba

theorem bus_sorted_pairwise {bus : Bus} (h : bus.sortedRep) :
    List.Pairwise (fun e1 e2 => e1.1.base < e2.1.base) bus.devices := by
  haveI : IsTrans (BusRange × Nat) (fun e1 e2 => e1.1.base < e2.1.base) :=
    ⟨fun _ _ _ h1 h2 => Nat.lt_trans h1 h2⟩
  exact List.chain'_iff_pairwise.mp h

theorem get_device_isSome_of_memBase {bus : Bus} {r : BusRange} {d : Nat}
    (hs : bus.sortedRep) (hp : bus.lensPos) (hmem : (r, d) ∈ bus.devices) :
    (bus.get_device r.base).isSome := by
  have hfb := @firstBeforeList_isSome_of_mem r.base _ _ hmem (Nat.le_refl _)
  cases ht : firstBeforeList r.base bus.devices with
  | none => rw [ht] at hfb; simp at hfb
  | some e =>
    obtain ⟨hm, hle⟩ := firstBeforeList_mem_le ht
    have hge := firstBeforeList_greatest (bus_sorted_pairwise hs) ht hmem (Nat.le_refl _)
    have hbe : e.1.base = r.base := Nat.le_antisymm hle hge
    have hlen : 0 < e.1.len := hp _ hm
    simp only [Bus.get_device, Bus.first_before, ht, hbe]
    simp [hlen]

theorem get_device_some_of_contains {bus : Bus} {r : BusRange} {d : Nat} {a : Nat}
    (hs : bus.sortedRep) (_hp : bus.lensPos) (hd : bus.disjointRanges)
    (hmem : (r, d) ∈ bus.devices) (hc : containsAddr r a) :
    bus.get_device a = some (a - r.base, d) := by
  obtain ⟨hc1, hc2⟩ := hc
  have hfb := @firstBeforeList_isSome_of_mem a _ _ hmem hc1
  cases ht : firstBeforeList a bus.devices with
  | none => rw [ht] at hfb; simp at hfb
  | some e =>
    obtain ⟨hm, hle⟩ := firstBeforeList_mem_le ht
    have hge := firstBeforeList_greatest (bus_sorted_pairwise hs) ht hmem hc1
    have heq : e = (r, d) := by
      by_cases hlt : r.base < e.1.base
      · exfalso
        have hov : rangesOverlap r e.1 := ⟨by omega, by omega⟩
        have hov2 : rangesOverlap e.1 r := ⟨hov.2, hov.1⟩
        have := pairwise_eq_of_not hd hm hmem (fun hn => hn hov2) (fun hn => hn hov)
        rw [this] at hlt
        exact Nat.lt_irrefl _ hlt
      · have hbe : e.1.base = r.base := Nat.le_antisymm (Nat.le_of_not_lt hlt) hge
        have heq2 := pairwise_eq_of_not (bus_sorted_pairwise hs) hm hmem
          (by simp [hbe]) (by simp [hbe])
        exact heq2
    subst heq
    simp only [Bus.get_device, Bus.first_before, ht]
    have : a - r.base < r.len := by omega
    simp [this]

theorem get_device_none_of_not_contains {bus : Bus} {a : Nat}
    (h : ∀ e ∈ bus.devices, ¬ containsAddr e.1 a) :
    bus.get_device a = none := by
  cases ht : firstBeforeList a bus.devices with
  | none => simp [Bus.get_device, Bus.first_before, ht]
  | some e =>
    obtain ⟨hm, hle⟩ := firstBeforeList_mem_le ht
    have hnc := h e hm
    have : ¬ (a - e.1.base < e.1.len) := by
      intro hlt
      exact hnc ⟨hle, by omega⟩
    simp [Bus.get_device, Bus.first_before, ht, this]

theorem btreeInsert_some {key : BusRange} {v : Nat} :
    ∀ {l : List (BusRange × Nat)} {w : Nat},
      (btreeInsert key v l).2 = some w → ∃ r d, (r, d) ∈ l ∧ r.base = key.base := by
  intro l
  induction l with
  | nil => intro w h; simp [btreeInsert] at h
  | cons x t ih =>
    intro w h
    simp only [btreeInsert] at h
    by_cases h1 : key.base < x.1.base
    · simp [if_pos h1] at h
    · by_cases h2 : key.base = x.1.base
      · exact ⟨x.1, x.2, List.mem_cons_self _ _, h2.symm⟩
      · simp only [if_neg h1, if_neg h2] at h
        obtain ⟨r, d, hm, hb⟩ := ih h
        exact ⟨r, d, List.mem_cons_of_mem _ hm, hb⟩

/-! ## Bus claim theorems -/

/-- C3 (code bug witness): with u64 wrapping arithmetic, inserting a
device at base 10 length 1 and then one at base 5 length 2^64 - 4 both
succeed, although the two registered ranges overlap (address 10 lies in
both half-open intervals), violating the documented pairwise-disjointness
invariant of the Bus. -/
theorem c3_insert_overflow_breaks_disjointness :
    (Bus.new.insert 1 10 1).1 = Except.ok () ∧
    ((Bus.new.insert 1 10 1).2.insert 2 5 (U64 - 4)).1 = Except.ok () ∧
    ((Bus.new.insert 1 10 1).2.insert 2 5 (U64 - 4)).2.devices =
      [(⟨5, U64 - 4⟩, 2), (⟨10, 1⟩, 1)] ∧
    rangesOverlap ⟨10, 1⟩ ⟨5, U64 - 4⟩ ∧
    ¬ ((Bus.new.insert 1 10 1).2.insert 2 5 (U64 - 4)).2.disjointRanges :=
  ⟨rfl, rfl, rfl, by decide, by decide⟩

/-- C5: every Bus::insert call that returns the Overlap error leaves the
Bus exactly as it was before the call, for any well-formed bus (strictly
base-sorted map with positive lengths, as produced by new and insert):
the three rejection checks return before any mutation, and the final
BTreeMap::insert error path is unreachable because a duplicate base is
always caught by the earlier get_device check. -/
theorem c5_failed_insert_leaves_bus_unchanged (bus : Bus) (device base len : Nat)
    (hwf : Bus.wf bus)
    (herr : (bus.insert device base len).1 = Except.error BusError.overlap) :
    (bus.insert device base len).2 = bus := by
  obtain ⟨hs, hp⟩ := hwf
  by_cases h0 : len = 0
  · simp [Bus.insert, h0]
  · cases hgd : (bus.get_device base).isSome with
    | true => simp [Bus.insert, h0, hgd]
    | false =>
      have hnotdup : (btreeInsert ⟨base, len⟩ device bus.devices).2 = none := by
        cases hbt : (btreeInsert ⟨base, len⟩ device bus.devices).2 with
        | none => rfl
        | some w =>
          obtain ⟨r, d, hm, hb⟩ := btreeInsert_some hbt
          have hsome := get_device_isSome_of_memBase hs hp hm
          rw [hb] at hsome
          rw [hgd] at hsome
          simp at hsome
      simp only [Bus.insert, h0, hgd] at herr ⊢
      cases hfb : bus.first_before ((base + len - 1) % U64) with
      | some e =>
        simp only [hfb] at herr ⊢
        by_cases hble : base ≤ e.1.base
        · simp [hble]
        · simp only [if_neg hble, hnotdup] at herr
          simp at herr
      | none =>
        simp only [hfb, hnotdup] at herr
        simp at herr

/-- C5 witness: a concrete well-formed bus on which an overlapping insert
fails and leaves the bus unchanged. -/
theorem c5_witness :
    (Bus.mk [(⟨4, 2⟩, 1)]).wf ∧
    ((Bus.mk [(⟨4, 2⟩, 1)]).insert 2 4 2).1 = Except.error BusError.overlap ∧
    ((Bus.mk [(⟨4, 2⟩, 1)]).insert 2 4 2).2 = Bus.mk [(⟨4, 2⟩, 1)] :=
  ⟨by decide, by rfl,
    c5_failed_insert_leaves_bus_unchanged (Bus.mk [(⟨4, 2⟩, 1)]) 2 4 2 (by decide) (by rfl)⟩

/-- C6: on a bus whose representation is sorted and whose ranges have
positive length and are pairwise disjoint, get_device a returns the
offset a - base and the handle of the unique device whose half-open range
contains a, and returns none when no registered range contains a. -/
theorem c6_get_device_lookup_correct (bus : Bus)
    (hs : bus.sortedRep) (hp : bus.lensPos) (hd : bus.disjointRanges) (a : Nat) :
    (∀ r d, (r, d) ∈ bus.devices → containsAddr r a →
      bus.get_device a = some (a - r.base, d)) ∧
    ((∀ r d, (r, d) ∈ bus.devices → ¬ containsAddr r a) →
      bus.get_device a = none) :=
  ⟨fun _ _ hm hc => get_device_some_of_contains hs hp hd hm hc,
   fun h => get_device_none_of_not_contains (fun e hm => h e.1 e.2 hm)⟩

/-- C6 witness: a concrete two-device bus, looked up at the last address
of the first range. -/
theorem c6_witness :
    (Bus.mk [(⟨256, 16⟩, 3), (⟨512, 4⟩, 8)]).sortedRep ∧
    (Bus.mk [(⟨256, 16⟩, 3), (⟨512, 4⟩, 8)]).lensPos ∧
    (Bus.mk [(⟨256, 16⟩, 3), (⟨512, 4⟩, 8)]).disjointRanges ∧
    ((∀ r d, (r, d) ∈ (Bus.mk [(⟨256, 16⟩, 3), (⟨512, 4⟩, 8)]).devices → containsAddr r 271 →
      (Bus.mk [(⟨256, 16⟩, 3), (⟨512, 4⟩, 8)]).get_device 271 = some (271 - r.base, d)) ∧
    ((∀ r d, (r, d) ∈ (Bus.mk [(⟨256, 16⟩, 3), (⟨512, 4⟩, 8)]).devices → ¬ containsAddr r 271) →
      (Bus.mk [(⟨256, 16⟩, 3), (⟨512, 4⟩, 8)]).get_device 271 = none)) :=
  ⟨by decide, by decide, by decide,
    c6_get_device_lookup_correct (Bus.mk [(⟨256, 16⟩, 3), (⟨512, 4⟩, 8)])
      (by decide) (by decide) (by decide) 271⟩

/-- C8: on a well-formed disjoint bus, Bus::read and Bus::write return
false and leave the device table and buffer unchanged when no registered
range owns the address, and forward the access to the owning device at
offset a - base returning true otherwise. -/
theorem c8_read_write_forwarding {σ : Type} (sem : DeviceSem σ) (bus : Bus)
    (devs : Nat → σ) (a : Nat) (data : List Nat)
    (hs : bus.sortedRep) (hp : bus.lensPos) (hd : bus.disjointRanges) :
    ((∀ r d, (r, d) ∈ bus.devices → ¬ containsAddr r a) →
      Bus.read sem bus devs a data = (false, devs, data) ∧
      Bus.write sem bus devs a data = (false, devs)) ∧
    (∀ r d, (r, d) ∈ bus.devices → containsAddr r a →
      Bus.read sem bus devs a data =
        (true, updateFun devs d (sem.dread (devs d) (a - r.base) data).1,
          (sem.dread (devs d) (a - r.base) data).2) ∧
      Bus.write sem bus devs a data =
        (true, updateFun devs d (sem.dwrite (devs d) (a - r.base) data))) := by
  constructor
  · intro h
    have hn := get_device_none_of_not_contains (fun e hm => h e.1 e.2 hm)
    exact ⟨by simp [Bus.read, hn], by simp [Bus.write, hn]⟩
  · intro r d hm hc
    have hg := get_device_some_of_contains hs hp hd hm hc
    exact ⟨by simp [Bus.read, hg], by simp [Bus.write, hg]⟩

/-- C8 witness: a concrete device semantics and bus, accessed at an owned
address. -/
theorem c8_witness :
    (Bus.mk [(⟨64, 8⟩, 5)]).sortedRep ∧
    (Bus.mk [(⟨64, 8⟩, 5)]).lensPos ∧
    (Bus.mk [(⟨64, 8⟩, 5)]).disjointRanges ∧
    (((∀ r d, (r, d) ∈ (Bus.mk [(⟨64, 8⟩, 5)]).devices → ¬ containsAddr r 70) →
      Bus.read ⟨fun s o dat => (s + o, o :: dat), fun s o _ => s + 2 * o⟩
          (Bus.mk [(⟨64, 8⟩, 5)]) (fun _ => 0) 70 [1, 2] = (false, (fun _ => 0), [1, 2]) ∧
      Bus.write ⟨fun s o dat => (s + o, o :: dat), fun s o _ => s + 2 * o⟩
          (Bus.mk [(⟨64, 8⟩, 5)]) (fun _ => 0) 70 [1, 2] = (false, (fun _ => 0))) ∧
    (∀ r d, (r, d) ∈ (Bus.mk [(⟨64, 8⟩, 5)]).devices → containsAddr r 70 →
      Bus.read ⟨fun s o dat => (s + o, o :: dat), fun s o _ => s + 2 * o⟩
          (Bus.mk [(⟨64, 8⟩, 5)]) (fun _ => 0) 70 [1, 2] =
        (true, updateFun (fun _ => 0) d (((0 : Nat) + (70 - r.base)), (70 - r.base) :: [1, 2]).1,
          (((0 : Nat) + (70 - r.base)), (70 - r.base) :: [1, 2]).2) ∧
      Bus.write ⟨fun s o dat => (s + o, o :: dat), fun s o _ => s + 2 * o⟩
          (Bus.mk [(⟨64, 8⟩, 5)]) (fun _ => 0) 70 [1, 2] =
        (true, updateFun (fun _ => 0) d ((0 : Nat) + 2 * (70 - r.base))))) :=
  ⟨by decide, by decide, by decide,
    c8_read_write_forwarding ⟨fun s o dat => (s + o, o :: dat), fun s o _ => s + 2 * o⟩
      (Bus.mk [(⟨64, 8⟩, 5)]) (fun _ => 0) 70 [1, 2] (by decide) (by decide) (by decide)⟩

/-- C9: insert with length zero always fails with Overlap, and inserting
at a base already registered in a well-formed bus always fails with
Overlap regardless of either length, because range equality and ordering
consider only the base and the base of the old entry is inside its own
range. -/
theorem c9_duplicate_base_and_zero_len_rejected :
    (∀ (bus : Bus) (device base : Nat),
      (bus.insert device base 0).1 = Except.error BusError.overlap) ∧
    (∀ (bus : Bus) (device base len l0 d0 : Nat), Bus.wf bus →
      (BusRange.mk base l0, d0) ∈ bus.devices →
      (bus.insert device base len).1 = Except.error BusError.overlap) := by
  constructor
  · intro bus device base
    simp [Bus.insert]
  · intro bus device base len l0 d0 hwf hmem
    obtain ⟨hs, hp⟩ := hwf
    by_cases h0 : len = 0
    · simp [Bus.insert, h0]
    · have hg := get_device_isSome_of_memBase hs hp hmem
      simp only [Bus.insert, h0]
      simp [hg]

/-- C9 witness: zero-length insert and duplicate-base insert at a
concrete bus. -/
theorem c9_witness :
    ((Bus.mk [(⟨7, 3⟩, 4)]).insert 9 7 0).1 = Except.error BusError.overlap ∧
    ((Bus.mk [(⟨7, 3⟩, 4)]).wf ∧ (BusRange.mk 7 3, 4) ∈ (Bus.mk [(⟨7, 3⟩, 4)]).devices) ∧
    ((Bus.mk [(⟨7, 3⟩, 4)]).insert 9 7 100).1 = Except.error BusError.overlap :=
  ⟨c9_duplicate_base_and_zero_len_rejected.1 (Bus.mk [(⟨7, 3⟩, 4)]) 9 7,
   ⟨by decide, by decide⟩,
   c9_duplicate_base_and_zero_len_rejected.2 (Bus.mk [(⟨7, 3⟩, 4)]) 9 7 100 3 4
     (by decide) (by decide)⟩

/-! ## GIC trace lemmas -/

theorem getRegsData_trace (s : GicHyp) (mk : Nat → GicReg) (cs : Nat) :
    ∀ regs : List SimpleReg, (getRegsData s mk cs regs).2 = readEventsFor mk cs regs := by
  intro regs
  induction regs with
  | nil => rfl
  | cons r rest ih => simp [getRegsData, readEventsFor, ih]

theorem getRegsDataOpt_trace (s : GicHyp) (mk : Nat → GicReg) (cs : Nat) :
    ∀ regs : List SimpleReg,
      (getRegsDataOpt s mk cs regs).2 = readEventsOpt s.present mk cs regs := by
  intro regs
  induction regs with
  | nil => rfl
  | cons r rest ih =>
    by_cases hpres : s.present (mk r.offset)
    · simp [getRegsDataOpt, readEventsOpt, hpres, ih]
    · simp [getRegsDataOpt, readEventsOpt, hpres, ih]

theorem saveVcpusV3_trace (s : GicHyp) :
    ∀ ms : List Nat, (GicV3.saveVcpus s ms).2 = vcpuLoopReadEventsV3 s.present ms := by
  intro ms
  induction ms with
  | nil => rfl
  | cons m rest ih =>
    simp [GicV3.saveVcpus, vcpuLoopReadEventsV3, vcpuReadEventsV3, ih,
      GicV3.get_redist_regs, GicV3.get_icc_regs, getRegsData_trace, getRegsDataOpt_trace]

theorem saveVcpusV2_trace (s : GicHyp) :
    ∀ ms : List Nat, (GicV2.saveVcpus s ms).2 = vcpuLoopReadEventsV2 ms := by
  intro ms
  induction ms with
  | nil => rfl
  | cons m rest ih =>
    simp [GicV2.saveVcpus, vcpuLoopReadEventsV2, vcpuReadEventsV2, ih,
      GicV2.get_icc_regs, getRegsData_trace]

theorem saveVcpusV3_length (s : GicHyp) :
    ∀ ms : List Nat, (GicV3.saveVcpus s ms).1.length = ms.length := by
  intro ms
  induction ms with
  | nil => rfl
  | cons m rest ih => simp [GicV3.saveVcpus, ih]

theorem saveVcpusV2_length (s : GicHyp) :
    ∀ ms : List Nat, (GicV2.saveVcpus s ms).1.length = ms.length := by
  intro ms
  induction ms with
  | nil => rfl
  | cons m rest ih => simp [GicV2.saveVcpus, ih]

theorem writeChunks_shape (mk : Nat → GicReg) :
    ∀ (pairs : List (Nat × Nat)) (s : GicHyp),
      ∀ e ∈ (writeChunks s mk pairs).2, ∃ o v, e = GicEvent.writeReg (mk o) v := by
  intro pairs
  induction pairs with
  | nil => intro s e h; simp [writeChunks] at h
  | cons p rest ih =>
    intro s e h
    simp only [writeChunks, List.mem_cons] at h
    rcases h with h | h
    · exact ⟨p.1, p.2, h⟩
    · exact ih _ e h

theorem setRegsData_shape (mk : Nat → GicReg) (cs : Nat) :
    ∀ (regs : List SimpleReg) (vals : List GicRegState) (s : GicHyp),
      ∀ e ∈ (setRegsData s mk cs regs vals).2, ∃ o v, e = GicEvent.writeReg (mk o) v := by
  intro regs
  induction regs with
  | nil => intro vals s e h; simp [setRegsData] at h
  | cons r rest ih =>
    intro vals s e h
    cases vals with
    | nil => simp [setRegsData] at h
    | cons v vs =>
      simp only [setRegsData, List.mem_append] at h
      rcases h with h | h
      · exact writeChunks_shape mk _ _ e h
      · exact ih vs _ e h

/-! ## C1 and C2 claim theorems -/

/-- C1 (amended): restore_state with a per-VCPU state count different
from the affinity-identifier count fails with InconsistentVcpuCount and
performs no per-VCPU register writes — every access in its trace is a
distributor register write — but the distributor registers are written,
because the distributor restore precedes the count check (both
revisions). -/
theorem c1_mismatch_fails_after_dist_writes (s : GicHyp) (mpidrs : List Nat)
    (st3 : GicV3.GicState) (st2 : GicV2.Gicv2State) :
    (mpidrs.length ≠ st3.gic_vcpu_states.length →
      (GicV3.restore_state s mpidrs st3).1 = Except.error GicError.inconsistentVcpuCount ∧
      (GicV3.restore_state s mpidrs st3).2.2 = (GicV3.set_dist_regs s st3.dist).2 ∧
      ∀ e ∈ (GicV3.restore_state s mpidrs st3).2.2, isDistWrite e) ∧
    (mpidrs.length ≠ st2.gic_vcpu_states.length →
      (GicV2.restore_state s mpidrs st2).1 = Except.error GicError.inconsistentVcpuCount ∧
      (GicV2.restore_state s mpidrs st2).2.2 = (GicV2.set_dist_regs s st2.dist).2 ∧
      ∀ e ∈ (GicV2.restore_state s mpidrs st2).2.2, isDistWrite e) := by
  constructor
  · intro hne
    have hres : GicV3.restore_state s mpidrs st3 =
        (Except.error GicError.inconsistentVcpuCount, (GicV3.set_dist_regs s st3.dist).1,
          (GicV3.set_dist_regs s st3.dist).2) := by
      simp [GicV3.restore_state, hne]
    refine ⟨by rw [hres], by rw [hres], ?_⟩
    rw [hres]
    intro e he
    obtain ⟨o, v, rfl⟩ := setRegsData_shape GicReg.dist 4 GicV3.DIST_REGS st3.dist s e he
    trivial
  · intro hne
    have hres : GicV2.restore_state s mpidrs st2 =
        (Except.error GicError.inconsistentVcpuCount, (GicV2.set_dist_regs s st2.dist).1,
          (GicV2.set_dist_regs s st2.dist).2) := by
      simp [GicV2.restore_state, hne]
    refine ⟨by rw [hres], by rw [hres], ?_⟩
    rw [hres]
    intro e he
    obtain ⟨o, v, rfl⟩ := setRegsData_shape GicReg.dist 4 GicV2.DIST_REGS st2.dist s e he
    trivial

/-- C1 witness: a concrete mismatching restore on both revisions. -/
theorem c1_witness :
    (([0] : List Nat).length ≠ ([] : List GicV3.GicVcpuState).length) ∧
    ((GicV3.restore_state ⟨fun _ => 0, fun _ => true, []⟩ [0] ⟨[⟨[7]⟩], []⟩).1 =
        Except.error GicError.inconsistentVcpuCount ∧
      (GicV3.restore_state ⟨fun _ => 0, fun _ => true, []⟩ [0] ⟨[⟨[7]⟩], []⟩).2.2 =
        (GicV3.set_dist_regs ⟨fun _ => 0, fun _ => true, []⟩ [⟨[7]⟩]).2 ∧
      ∀ e ∈ (GicV3.restore_state ⟨fun _ => 0, fun _ => true, []⟩ [0] ⟨[⟨[7]⟩], []⟩).2.2,
        isDistWrite e) :=
  ⟨by decide,
    (c1_mismatch_fails_after_dist_writes ⟨fun _ => 0, fun _ => true, []⟩ [0]
        ⟨[⟨[7]⟩], []⟩ ⟨[], []⟩).1 (by decide)⟩

/-- C1 counterexample: at a concrete mismatching input the GICv3 restore
fails with InconsistentVcpuCount but its access trace is a nonempty list
containing a distributor register write, refuting the claim that zero
register writes are performed. -/
theorem c1_counterexample :
    (GicV3.restore_state ⟨fun _ => 0, fun _ => true, []⟩ [0] ⟨[⟨[7]⟩], []⟩).1 =
      Except.error GicError.inconsistentVcpuCount ∧
    (GicV3.restore_state ⟨fun _ => 0, fun _ => true, []⟩ [0] ⟨[⟨[7]⟩], []⟩).2.2 =
      [GicEvent.writeReg (GicReg.dist 0) 7] ∧
    (GicV2.restore_state ⟨fun _ => 0, fun _ => true, []⟩ [0] ⟨[⟨[9]⟩], []⟩).1 =
      Except.error GicError.inconsistentVcpuCount ∧
    (GicV2.restore_state ⟨fun _ => 0, fun _ => true, []⟩ [0] ⟨[⟨[9]⟩], []⟩).2.2 =
      [GicEvent.writeReg (GicReg.dist 0) 9] :=
  ⟨rfl, by decide, rfl, by decide⟩

/-- C2 (amended): for revision B the save trace is exactly the flush,
then the per-VCPU loop in caller order (redistributor reads before
CPU-interface reads within each iteration), then the distributor reads;
for revision A it is the per-VCPU loop followed by the distributor
reads. -/
theorem c2_save_order (s : GicHyp) (mpidrs : List Nat) :
    (GicV3.save_state s mpidrs).2.2 =
      GicEvent.flushPendingTables ::
        (vcpuLoopReadEventsV3 s.present mpidrs ++ readEventsFor GicReg.dist 4 GicV3.DIST_REGS) ∧
    (GicV2.save_state s mpidrs).2 =
      vcpuLoopReadEventsV2 mpidrs ++ readEventsFor GicReg.dist 4 GicV2.DIST_REGS := by
  constructor
  · have h1 : ((GicV3.save_pending_tables s).1).present = s.present := rfl
    simp [GicV3.save_state, GicV3.save_pending_tables, GicV3.get_dist_regs,
      saveVcpusV3_trace, getRegsData_trace]
  · simp [GicV2.save_state, GicV2.get_dist_regs, saveVcpusV2_trace, getRegsData_trace]

/-- C2 counterexample: at a concrete input the access trace of save_state
differs from the order the claim states (distributor reads before the
per-VCPU loop): the per-VCPU reads come first on both revisions. -/
theorem c2_counterexample :
    (GicV3.save_state ⟨fun _ => 0, fun _ => true, []⟩ [0]).2.2 ≠
      GicEvent.flushPendingTables ::
        (readEventsFor GicReg.dist 4 GicV3.DIST_REGS ++
          vcpuLoopReadEventsV3 (fun _ => true) [0]) ∧
    (GicV2.save_state ⟨fun _ => 0, fun _ => true, []⟩ [0]).2 ≠
      readEventsFor GicReg.dist 4 GicV2.DIST_REGS ++ vcpuLoopReadEventsV2 [0] :=
  ⟨by decide, by decide⟩

/-! ## Write-back lemmas for the save/restore round trip -/

theorem writeChunks_fields (mk : Nat → GicReg) :
    ∀ (pairs : List (Nat × Nat)) (s : GicHyp),
      (writeChunks s mk pairs).1.present = s.present ∧
      (writeChunks s mk pairs).1.shadow = s.shadow := by
  intro pairs
  induction pairs with
  | nil => intro s; exact ⟨rfl, rfl⟩
  | cons p rest ih =>
    intro s
    simp only [writeChunks]
    exact ih (setReg s (mk p.1) p.2)

theorem writeChunks_regs (mk : Nat → GicReg) (f : GicReg → Nat) :
    ∀ (pairs : List (Nat × Nat)) (s : GicHyp),
      (∀ k, s.regs k = f k) → (∀ p ∈ pairs, p.2 = f (mk p.1)) →
      ∀ k, (writeChunks s mk pairs).1.regs k = f k := by
  intro pairs
  induction pairs with
  | nil => intro s hs _ k; exact hs k
  | cons p rest ih =>
    intro s hs hv k
    simp only [writeChunks]
    apply ih
    · intro k'
      simp only [setReg]
      by_cases hk : k' = mk p.1
      · rw [if_pos hk, hk]
        exact hv p (List.mem_cons_self _ _)
      · rw [if_neg hk]
        exact hs k'
    · intro q hq
      exact hv q (List.mem_cons_of_mem _ hq)

theorem zip_map_snd {α β : Type} (g : α → β) :
    ∀ (xs : List α), ∀ p ∈ xs.zip (xs.map g), p.2 = g p.1 := by
  intro xs
  induction xs with
  | nil => intro p h; simp at h
  | cons x t ih =>
    intro p h
    rw [List.map_cons, List.zip_cons_cons] at h
    rcases List.mem_cons.mp h with h | h
    · subst h; rfl
    · exact ih p h

theorem setRegsData_fields (mk : Nat → GicReg) (cs : Nat) :
    ∀ (regs : List SimpleReg) (vals : List GicRegState) (s : GicHyp),
      (setRegsData s mk cs regs vals).1.present = s.present ∧
      (setRegsData s mk cs regs vals).1.shadow = s.shadow := by
  intro regs
  induction regs with
  | nil => intro vals s; exact ⟨rfl, rfl⟩
  | cons r rest ih =>
    intro vals s
    cases vals with
    | nil => exact ⟨rfl, rfl⟩
    | cons v vs =>
      simp only [setRegsData]
      obtain ⟨hp, hsh⟩ := ih vs (writeChunks s mk ((chunkOffsets cs r).zip v.chunks)).1
      obtain ⟨hp2, hsh2⟩ := writeChunks_fields mk ((chunkOffsets cs r).zip v.chunks) s
      exact ⟨hp.trans hp2, hsh.trans hsh2⟩

theorem setRegsData_writeback (mk : Nat → GicReg) (cs : Nat) (f : GicReg → Nat) :
    ∀ (regs : List SimpleReg) (s u : GicHyp),
      (∀ k, s.regs k = f k) → (∀ k, u.regs k = f k) →
      ∀ k, (setRegsData s mk cs regs (getRegsData u mk cs regs).1).1.regs k = f k := by
  intro regs
  induction regs with
  | nil => intro s u hs _ k; exact hs k
  | cons r rest ih =>
    intro s u hs hu k
    simp only [getRegsData, setRegsData]
    apply ih _ u _ hu
    apply writeChunks_regs mk f _ s hs
    intro p hp
    have := zip_map_snd (fun o => u.regs (mk o)) (chunkOffsets cs r) p hp
    rw [this]
    exact hu (mk p.1)

theorem setRegsDataOpt_writeback (mk : Nat → GicReg) (cs : Nat) (f : GicReg → Nat) :
    ∀ (regs : List SimpleReg) (s u : GicHyp),
      (∀ k, s.regs k = f k) → (∀ k, u.regs k = f k) → s.present = u.present →
      ∃ s2, (setRegsDataOpt s mk cs regs (getRegsDataOpt u mk cs regs).1).1 = Except.ok s2 ∧
        (∀ k, s2.regs k = f k) ∧ s2.present = s.present ∧ s2.shadow = s.shadow := by
  intro regs
  induction regs with
  | nil =>
    intro s u hs _ _
    exact ⟨s, rfl, hs, rfl, rfl⟩
  | cons r rest ih =>
    intro s u hs hu hpr
    cases hpres : u.present (mk r.offset) with
    | true =>
      simp only [getRegsDataOpt, setRegsDataOpt, hpres, if_pos]
      have hw := writeChunks_regs mk f
        ((chunkOffsets cs r).zip ((chunkOffsets cs r).map fun o => u.regs (mk o))) s hs
        (by
          intro p hp
          have := zip_map_snd (fun o => u.regs (mk o)) (chunkOffsets cs r) p hp
          rw [this]
          exact hu (mk p.1))
      obtain ⟨hwp, hwsh⟩ := writeChunks_fields mk
        ((chunkOffsets cs r).zip ((chunkOffsets cs r).map fun o => u.regs (mk o))) s
      obtain ⟨s2, hok, hr2, hp2, hsh2⟩ := ih _ u hw hu (hwp.trans hpr)
      exact ⟨s2, hok, hr2, hp2.trans hwp, hsh2.trans hwsh⟩
    | false =>
      have hsp : s.present (mk r.offset) = false := by rw [hpr, hpres]
      simp only [getRegsDataOpt, setRegsDataOpt, hpres, hsp]
      simp only [Bool.false_eq_true, if_false]
      exact ih s u hs hu hpr

theorem set_icc_regs_v3_writeback (m : Nat) (f : GicReg → Nat) (s u : GicHyp)
    (hs : ∀ k, s.regs k = f k) (hu : ∀ k, u.regs k = f k) (hpr : s.present = u.present) :
    ∃ s2 tr, GicV3.set_icc_regs s m (GicV3.get_icc_regs u m).1 = (Except.ok s2, tr) ∧
      (∀ k, s2.regs k = f k) ∧ s2.present = s.present ∧ s2.shadow = s.shadow := by
  have hmain := setRegsData_writeback (GicReg.icc m) 8 f GicV3.MAIN_ICC_REGS s u hs hu
  obtain ⟨hmp, hmsh⟩ := setRegsData_fields (GicReg.icc m) 8 GicV3.MAIN_ICC_REGS
    (getRegsData u (GicReg.icc m) 8 GicV3.MAIN_ICC_REGS).1 s
  obtain ⟨s2, hok, hr2, hp2, hsh2⟩ := setRegsDataOpt_writeback (GicReg.icc m) 8 f
    GicV3.AP_ICC_REGS
    (setRegsData s (GicReg.icc m) 8 GicV3.MAIN_ICC_REGS
      (getRegsData u (GicReg.icc m) 8 GicV3.MAIN_ICC_REGS).1).1
    u hmain hu (hmp.trans hpr)
  refine ⟨s2, (GicV3.set_icc_regs s m (GicV3.get_icc_regs u m).1).2, ?_,
    hr2, hp2.trans hmp, hsh2.trans hmsh⟩
  exact Prod.ext hok rfl

theorem restoreVcpusV3_writeback (f : GicReg → Nat) :
    ∀ (mpidrs : List Nat) (s u : GicHyp),
      (∀ k, s.regs k = f k) → (∀ k, u.regs k = f k) → s.present = u.present →
      (GicV3.restoreVcpus s (mpidrs.zip (GicV3.saveVcpus u mpidrs).1)).1 = Except.ok () ∧
      (∀ k, (GicV3.restoreVcpus s (mpidrs.zip (GicV3.saveVcpus u mpidrs).1)).2.1.regs k = f k) ∧
      (GicV3.restoreVcpus s (mpidrs.zip (GicV3.saveVcpus u mpidrs).1)).2.1.present = s.present ∧
      (GicV3.restoreVcpus s (mpidrs.zip (GicV3.saveVcpus u mpidrs).1)).2.1.shadow = s.shadow := by
  intro mpidrs
  induction mpidrs with
  | nil =>
    intro s u hs _ _
    exact ⟨rfl, hs, rfl, rfl⟩
  | cons m rest ih =>
    intro s u hs hu hpr
    have hrd := setRegsData_writeback (GicReg.redist m) 4 f GicV3.REDIST_REGS s u hs hu
    obtain ⟨hrdp, hrdsh⟩ := setRegsData_fields (GicReg.redist m) 4 GicV3.REDIST_REGS
      (getRegsData u (GicReg.redist m) 4 GicV3.REDIST_REGS).1 s
    obtain ⟨s2, tr, hicc, hr2, hp2, hsh2⟩ := set_icc_regs_v3_writeback m f
      (setRegsData s (GicReg.redist m) 4 GicV3.REDIST_REGS
        (getRegsData u (GicReg.redist m) 4 GicV3.REDIST_REGS).1).1
      u hrd hu (hrdp.trans hpr)
    obtain ⟨hok, hr3, hp3, hsh3⟩ := ih s2 u hr2 hu (hp2.trans (hrdp.trans hpr))
    simp only [GicV3.saveVcpus, GicV3.restoreVcpus, List.zip_cons_cons,
      GicV3.set_redist_regs, GicV3.get_redist_regs, hicc]
    exact ⟨hok, hr3, hp3.trans (hp2.trans hrdp), hsh3.trans (hsh2.trans hrdsh)⟩

theorem restoreVcpusV2_writeback (f : GicReg → Nat) :
    ∀ (mpidrs : List Nat) (s u : GicHyp),
      (∀ k, s.regs k = f k) → (∀ k, u.regs k = f k) →
      (∀ k, (GicV2.restoreVcpus s (mpidrs.zip (GicV2.saveVcpus u mpidrs).1)).1.regs k = f k) ∧
      (GicV2.restoreVcpus s (mpidrs.zip (GicV2.saveVcpus u mpidrs).1)).1.present = s.present ∧
      (GicV2.restoreVcpus s (mpidrs.zip (GicV2.saveVcpus u mpidrs).1)).1.shadow = s.shadow := by
  intro mpidrs
  induction mpidrs with
  | nil =>
    intro s u hs _
    exact ⟨hs, rfl, rfl⟩
  | cons m rest ih =>
    intro s u hs hu
    have hic := setRegsData_writeback (GicReg.icc m) 8 f GicV2.MAIN_VGIC_ICC_REGS s u hs hu
    obtain ⟨hicp, hicsh⟩ := setRegsData_fields (GicReg.icc m) 8 GicV2.MAIN_VGIC_ICC_REGS
      (getRegsData u (GicReg.icc m) 8 GicV2.MAIN_VGIC_ICC_REGS).1 s
    obtain ⟨hr3, hp3, hsh3⟩ := ih
      (setRegsData s (GicReg.icc m) 8 GicV2.MAIN_VGIC_ICC_REGS
        (getRegsData u (GicReg.icc m) 8 GicV2.MAIN_VGIC_ICC_REGS).1).1
      u hic hu
    simp only [GicV2.saveVcpus, GicV2.restoreVcpus, List.zip_cons_cons,
      GicV2.set_icc_regs, GicV2.get_icc_regs]
    exact ⟨hr3, hp3.trans hicp, hsh3.trans hicsh⟩

/-- C4: for a fixed set of affinity identifiers, restoring the state just
returned by save_state succeeds and is a no-op with respect to
subsequently observed register values: a second save_state returns the
same captured state as the first, on both revisions (in this model reads
carry no side effects, so the equality is exact). -/
theorem c4_save_restore_round_trip (s : GicHyp) (mpidrs : List Nat) :
    (GicV3.restore_state (GicV3.save_state s mpidrs).2.1 mpidrs
        (GicV3.save_state s mpidrs).1).1 = Except.ok () ∧
    (GicV3.save_state (GicV3.restore_state (GicV3.save_state s mpidrs).2.1 mpidrs
        (GicV3.save_state s mpidrs).1).2.1 mpidrs).1 = (GicV3.save_state s mpidrs).1 ∧
    (GicV2.restore_state s mpidrs (GicV2.save_state s mpidrs).1).1 = Except.ok () ∧
    (GicV2.save_state (GicV2.restore_state s mpidrs
        (GicV2.save_state s mpidrs).1).2.1 mpidrs).1 = (GicV2.save_state s mpidrs).1 := by
  -- GICv3 shared facts
  have hd_regs : ∀ k, (GicV3.set_dist_regs (GicV3.save_pending_tables s).1
      ((GicV3.save_state s mpidrs).1).dist).1.regs k =
      ((GicV3.save_pending_tables s).1).regs k :=
    setRegsData_writeback GicReg.dist 4 ((GicV3.save_pending_tables s).1).regs
      GicV3.DIST_REGS (GicV3.save_pending_tables s).1 (GicV3.save_pending_tables s).1
      (fun _ => rfl) (fun _ => rfl)
  obtain ⟨hdp, hdsh⟩ := setRegsData_fields GicReg.dist 4 GicV3.DIST_REGS
    (getRegsData (GicV3.save_pending_tables s).1 GicReg.dist 4 GicV3.DIST_REGS).1
    (GicV3.save_pending_tables s).1
  obtain ⟨hok, hr, hpres, hsh⟩ := restoreVcpusV3_writeback
    ((GicV3.save_pending_tables s).1).regs mpidrs
    (GicV3.set_dist_regs (GicV3.save_pending_tables s).1
      ((GicV3.save_state s mpidrs).1).dist).1
    (GicV3.save_pending_tables s).1 hd_regs (fun _ => rfl) hdp
  have hcond : ¬ (mpidrs.length ≠ ((GicV3.save_state s mpidrs).1).gic_vcpu_states.length) := by
    have := saveVcpusV3_length (GicV3.save_pending_tables s).1 mpidrs
    simp only [GicV3.save_state]
    omega
  rcases hrv : GicV3.restoreVcpus
      (GicV3.set_dist_regs (GicV3.save_pending_tables s).1
        ((GicV3.save_state s mpidrs).1).dist).1
      (mpidrs.zip (GicV3.saveVcpus (GicV3.save_pending_tables s).1 mpidrs).1)
    with ⟨r, s2, tr⟩
  rw [hrv] at hok hr hpres hsh
  have hres3 : GicV3.restore_state (GicV3.save_state s mpidrs).2.1 mpidrs
      (GicV3.save_state s mpidrs).1 =
      (r, s2, (GicV3.set_dist_regs (GicV3.save_pending_tables s).1
        ((GicV3.save_state s mpidrs).1).dist).2 ++ tr) := by
    have e1 : (GicV3.save_state s mpidrs).2.1 = (GicV3.save_pending_tables s).1 := rfl
    have e2 : ((GicV3.save_state s mpidrs).1).gic_vcpu_states =
        (GicV3.saveVcpus (GicV3.save_pending_tables s).1 mpidrs).1 := rfl
    simp only [GicV3.restore_state]
    rw [if_neg hcond]
    rw [e1, e2, hrv]
  have hs2 : s2 = (GicV3.save_pending_tables s).1 := by
    apply GicHyp.ext
    · funext k
      exact hr k
    · exact hpres.trans hdp
    · exact hsh.trans hdsh
  -- GICv2 shared facts
  have hd2_regs : ∀ k, (GicV2.set_dist_regs s ((GicV2.save_state s mpidrs).1).dist).1.regs k =
      s.regs k :=
    setRegsData_writeback GicReg.dist 4 s.regs GicV2.DIST_REGS s s
      (fun _ => rfl) (fun _ => rfl)
  obtain ⟨hd2p, hd2sh⟩ := setRegsData_fields GicReg.dist 4 GicV2.DIST_REGS
    (getRegsData s GicReg.dist 4 GicV2.DIST_REGS).1 s
  obtain ⟨hr2, hp2, hsh2⟩ := restoreVcpusV2_writeback s.regs mpidrs
    (GicV2.set_dist_regs s ((GicV2.save_state s mpidrs).1).dist).1 s
    hd2_regs (fun _ => rfl)
  have hcond2 : ¬ (mpidrs.length ≠ ((GicV2.save_state s mpidrs).1).gic_vcpu_states.length) := by
    have := saveVcpusV2_length s mpidrs
    simp only [GicV2.save_state]
    omega
  have hres2 : GicV2.restore_state s mpidrs (GicV2.save_state s mpidrs).1 =
      (Except.ok (),
        (GicV2.restoreVcpus (GicV2.set_dist_regs s ((GicV2.save_state s mpidrs).1).dist).1
          (mpidrs.zip (GicV2.saveVcpus s mpidrs).1)).1,
        (GicV2.set_dist_regs s ((GicV2.save_state s mpidrs).1).dist).2 ++
        (GicV2.restoreVcpus (GicV2.set_dist_regs s ((GicV2.save_state s mpidrs).1).dist).1
          (mpidrs.zip (GicV2.saveVcpus s mpidrs).1)).2) := by
    have e3 : ((GicV2.save_state s mpidrs).1).gic_vcpu_states =
        (GicV2.saveVcpus s mpidrs).1 := rfl
    simp only [GicV2.restore_state]
    rw [if_neg hcond2]
    rw [e3]
  have hs2' : (GicV2.restoreVcpus (GicV2.set_dist_regs s ((GicV2.save_state s mpidrs).1).dist).1
      (mpidrs.zip (GicV2.saveVcpus s mpidrs).1)).1 = s := by
    apply GicHyp.ext
    · funext k
      exact hr2 k
    · exact hp2.trans hd2p
    · exact hsh2.trans hd2sh
  refine ⟨?_, ?_, ?_, ?_⟩
  · rw [hres3]
    exact hok
  · rw [hres3]
    show (GicV3.save_state s2 mpidrs).1 = (GicV3.save_state s mpidrs).1
    rw [hs2]
    rfl
  · rw [hres2]
  · rw [hres2]
    show (GicV2.save_state (GicV2.restoreVcpus
        (GicV2.set_dist_regs s ((GicV2.save_state s mpidrs).1).dist).1
        (mpidrs.zip (GicV2.saveVcpus s mpidrs).1)).1 mpidrs).1 = (GicV2.save_state s mpidrs).1
    rw [hs2']

/-- C10: gicv2 get_icc_regs always returns an empty ap_icc_regs list
(the source hard-codes Vec::new for it), so a saved revision-A per-VCPU
state never contains optional system-register entries, and a revision-A
restore never produces the InvalidVgicSysRegState absent-entry error
(its CPU-interface restore writes only the required main registers). -/
theorem c10_v2_ap_icc_regs_empty :
    (∀ (s : GicHyp) (m : Nat), (GicV2.get_icc_regs s m).1.ap_icc_regs = []) ∧
    (∀ (s : GicHyp) (mpidrs : List Nat) (st : GicV2.Gicv2State),
      (GicV2.restore_state s mpidrs st).1 ≠ Except.error GicError.invalidVgicSysRegState) := by
  constructor
  · intro s m
    rfl
  · intro s mpidrs st h
    by_cases hc : mpidrs.length ≠ st.gic_vcpu_states.length
    · rw [GicV2.restore_state, if_pos hc] at h
      exact absurd h (by simp)
    · rw [GicV2.restore_state, if_neg hc] at h
      exact absurd h (by simp)

/-- A bit-masking helper: a value below the mask width is unchanged by
the shifted mask. -/
theorem land_mask_shiftLeft {x m k : Nat} (h : x < 2 ^ m) :
    (x <<< k) &&& ((2 ^ m - 1) <<< k) = x <<< k := by
  apply Nat.eq_of_testBit_eq
  intro i
  simp only [Nat.testBit_land, Nat.testBit_shiftLeft, Nat.testBit_two_pow_sub_one]
  by_cases h1 : k ≤ i
  · by_cases h2 : i - k < m
    · simp [h1, h2]
    · have hf : x.testBit (i - k) = false :=
        Nat.testBit_lt_two_pow
          (Nat.lt_of_lt_of_le h (Nat.pow_le_pow_right (by omega) (Nat.le_of_not_lt h2)))
    -- the bit of x above its width is false, so both sides are false
      simp [h1, h2, hf]
  · simp [h1]

/-- C7 (amended): the composed attribute equals (selector shifted left by
32) or-ed with the offset whenever the selector fits in 8 bits and the
offset in 32 bits; the source masks the shifted selector with 0xff << 32
and the offset with 0xffffffff, so larger values are truncated. -/
theorem c7_attr_packing (cpuid offset : Nat)
    (h1 : cpuid < 2 ^ 8) (h2 : offset < 2 ^ 32) :
    GicV2.kvm_device_attr_attr cpuid offset = (cpuid <<< 32) ||| offset := by
  have e1 : (cpuid <<< 32) % U64 = cpuid <<< 32 := by
    apply Nat.mod_eq_of_lt
    rw [Nat.shiftLeft_eq]
    calc cpuid * 2 ^ 32 < 2 ^ 8 * 2 ^ 32 := by
          exact Nat.mul_lt_mul_of_lt_of_le h1 (Nat.le_refl _) (by omega)
      _ ≤ U64 := by norm_num [U64]
  have e2 : ((0xff : Nat) <<< 32) % U64 = (2 ^ 8 - 1) <<< 32 := by decide
  have e3 : (offset <<< 0) % U64 = offset := by
    rw [Nat.shiftLeft_zero]
    exact Nat.mod_eq_of_lt (Nat.lt_trans h2 (by norm_num [U64]))
  have e4 : ((0xffffffff : Nat) <<< 0) % U64 = 2 ^ 32 - 1 := by decide
  rw [GicV2.kvm_device_attr_attr, GicV2.KVM_DEV_ARM_VGIC_CPUID_SHIFT,
    GicV2.KVM_DEV_ARM_VGIC_OFFSET_SHIFT, e1, e2, e3, e4]
  rw [land_mask_shiftLeft h1]
  rw [Nat.and_pow_two_sub_one_eq_mod, Nat.mod_eq_of_lt h2]

/-- C7 witness: the packing at a concrete in-range selector and offset. -/
theorem c7_witness :
    ((3 : Nat) < 2 ^ 8 ∧ (0x1c : Nat) < 2 ^ 32) ∧
    GicV2.kvm_device_attr_attr 3 0x1c = ((3 : Nat) <<< 32) ||| 0x1c :=
  ⟨⟨by decide, by decide⟩, c7_attr_packing 3 0x1c (by decide) (by decide)⟩

/-- C7 counterexample: for selector 0x100 the claimed formula gives
0x100 << 32 while the code masks the selector to its low 8 bits and
yields 0, so the claim fails for all selector and offset values. -/
theorem c7_counterexample :
    GicV2.kvm_device_attr_attr 0x100 0x4 ≠ ((0x100 : Nat) <<< 32) ||| 0x4 := by decide
